import Mathlib

/-!
Verification development for the AI request-validation and retry layer
(`src/backend/services/ai`): a shallow embedding of the retry orchestrator,
error taxonomy, content-safety validator, and the two request models
(`StoryRequest`, `IllustrationRequest`), with theorems settling the spec
claims about them.
-/

namespace AIService

/-! ## Error taxonomy (`src/utils/error_handler.py`)

`ERROR_MESSAGES` entries used by the claims. -/

def msgRATE_LIMIT : String := "API rate limit exceeded. Please try again later."
def msgINVALID_REQUEST : String := "Invalid request parameters provided."
def msgAPI_ERROR : String := "External API error occurred."
def msgTIMEOUT : String := "Request timed out. Please try again."
def msgCONTENT_FILTER : String := "Content violates safety guidelines."
def msgRETRY_FAILED : String := "Maximum retry attempts exceeded."
def msgRESOURCE_EXHAUSTED : String := "AI resource quota exhausted."

/-- The upstream exception types that appear in `handle_openai_error`'s and
`handle_stable_diffusion_error`'s `error_mapping` dictionaries or in
`_is_retryable_error`'s `retryable_errors` tuple.  `other tag` stands for any
exception of a type not among those (`tag` records its type name). -/
inductive UpstreamFault where
  | openaiRateLimit
  | openaiInvalidRequest
  | openaiAPIError
  | openaiTimeout
  | openaiContentFilter
  | openaiServiceUnavailable
  | openaiAPIConnection
  | sdRateLimit
  | sdInvalidRequest
  | sdServerError
  | sdResourceExhausted
  | other (tag : String)
deriving DecidableEq, Repr

open UpstreamFault

/-- `_is_retryable_error`: `isinstance` check against the tuple
`(openai.RateLimitError, openai.ServiceUnavailableError,
openai.APIConnectionError, stability.RateLimitError, stability.ServerError)`. -/
def isRetryableError : UpstreamFault → Bool
  | openaiRateLimit => true
  | openaiServiceUnavailable => true
  | openaiAPIConnection => true
  | sdRateLimit => true
  | sdServerError => true
  | _ => false

/-- The `(status_code, message)` pair computed by `handle_openai_error` via
`error_mapping.get(type(error), (500, ERROR_MESSAGES['API_ERROR']))`. -/
def openaiStatusMessage : UpstreamFault → Nat × String
  | openaiRateLimit => (429, msgRATE_LIMIT)
  | openaiInvalidRequest => (400, msgINVALID_REQUEST)
  | openaiAPIError => (500, msgAPI_ERROR)
  | openaiTimeout => (504, msgTIMEOUT)
  | openaiContentFilter => (422, msgCONTENT_FILTER)
  | _ => (500, msgAPI_ERROR)

/-- The `(status_code, message)` pair computed by
`handle_stable_diffusion_error` via
`error_mapping.get(type(error), (500, ERROR_MESSAGES['API_ERROR']))`. -/
def sdStatusMessage : UpstreamFault → Nat × String
  | sdRateLimit => (429, msgRATE_LIMIT)
  | sdInvalidRequest => (400, msgINVALID_REQUEST)
  | sdServerError => (500, msgAPI_ERROR)
  | sdResourceExhausted => (429, msgRESOURCE_EXHAUSTED)
  | _ => (500, msgAPI_ERROR)

/-! ## Retry orchestrator (`retry` decorator, `src/utils/error_handler.py`)

The decorated call is modelled as `op : Nat → Except ε α` (the result of the
wrapped function on each zero-based attempt index).  The loop body of
`wrapper` is:

```
for attempt in range(max_attempts):
    try: return func(...)
    except Exception as e:
        last_exception = e
        if not _is_retryable_error(e): raise
        time.sleep(delay * (2 ** attempt))
raise AIServiceError(message=ERROR_MESSAGES['RETRY_FAILED'],
                     details={'original_error': str(last_exception)}, ...)
```

We track, alongside the outcome, the number of calls made to `op` and the
total time passed to `time.sleep` (in units of seconds, as a rational). -/

/-- Terminal outcome of the `retry` wrapper: the wrapped function's value, the
re-raised original non-retryable exception, or the `RETRY_FAILED`
`AIServiceError` wrapping the last exception seen (`none` when the loop never
ran). -/
inductive RetryOutcome (ε α : Type) where
  | success (a : α)
  | raised (e : ε)
  | retryFailed (last : Option ε)
deriving DecidableEq, Repr

/-- The retry loop starting at attempt index `attempt` with `remaining` loop
iterations left and `last` the last exception recorded so far.  Returns the
outcome, the number of calls to `op` made, and the total slept time. -/
def retryAux (op : Nat → Except ε α) (isR : ε → Bool) (delay : ℚ) :
    Nat → Nat → Option ε → RetryOutcome ε α × Nat × ℚ
  | _, 0, last => (.retryFailed last, 0, 0)
  | attempt, remaining + 1, _ =>
    match op attempt with
    | .ok a => (.success a, 1, 0)
    | .error e =>
      if isR e then
        let w := delay * 2 ^ attempt
        let r := retryAux op isR delay (attempt + 1) remaining (some e)
        (r.1, r.2.1 + 1, r.2.2 + w)
      else
        (.raised e, 1, 0)

/-- `retry(max_attempts, delay)` applied to `op`: run the loop from attempt 0
with no exception recorded yet. -/
def retryRun (op : Nat → Except ε α) (isR : ε → Bool) (maxAttempts : Nat)
    (delay : ℚ) : RetryOutcome ε α × Nat × ℚ :=
  retryAux op isR delay 0 maxAttempts none

/-! ## Content-safety validator (`ContentValidator`, `src/utils/validators.py`)

Strings are treated as their character sequences.  `str.lower()` is embedded
character-wise (`Char.toLower`; exact on the ASCII pattern data involved), and
the NFKC normalization step `_normalize_text` is kept as an explicit function
parameter `nfkc`, since the claims hold for every normalization function. -/

/-- Python `str.lower()`, character-wise. -/
def pyLower (s : String) : String := String.mk (s.data.map Char.toLower)

/-- `needle` occurs as a contiguous run inside `hay` (Python `needle in hay`). -/
def listContains (needle : List Char) : List Char → Bool
  | [] => needle.isEmpty
  | c :: t => needle.isPrefixOf (c :: t) || listContains needle t

/-- Python's substring test `needle in hay` on strings. -/
def strContains (hay needle : String) : Bool := listContains needle.data hay.data

/-- Case-insensitive substring search, modelling `re.search` with the `(?i)`
flag for a literal word. -/
def ciContains (hay needle : String) : Bool :=
  strContains (pyLower hay) (pyLower needle)

/-- `ValidationResult` dataclass.  The `details` maps appearing in
`_check_content_safety` have exactly one key, so they are embedded as an
optional key/value pair. -/
structure ValidationResult where
  is_valid : Bool
  message : String
  details : Option (String × String)
deriving DecidableEq, Repr

/-- A compiled regex of the shape `(?i)(w1|w2|w3)` as used in
`UNSAFE_PATTERNS` and `AGE_INAPPROPRIATE_CONTENT`: `pattern` is the regex
source text (reported in `details`), `words` its alternation branches. -/
structure RegexAlt where
  pattern : String
  words : List String
deriving DecidableEq, Repr

/-- `pattern.search(n)` for a `RegexAlt`. -/
def altSearch (p : RegexAlt) (n : String) : Bool :=
  p.words.any (fun w => ciContains n w)

def msgKeywordHit : String := "Content contains inappropriate keywords"
def msgUnsafeHit : String := "Content contains unsafe patterns"
def msgAgeHit : String := "Content not suitable for target age group"
def msgSafetyPassed : String := "Content passed safety checks"

/-- The `for keyword in NSFW_KEYWORDS` loop: first keyword contained in the
normalized text (a case-sensitive `in` test) produces the failure result. -/
def scanKeywords (n : String) : List String → Option ValidationResult
  | [] => none
  | k :: ks =>
    if strContains n k then
      some ⟨false, msgKeywordHit, some ("keyword", k)⟩
    else
      scanKeywords n ks

/-- A `for pattern in ...: if pattern.search(...)` loop over a regex group. -/
def scanPatterns (msg : String) (n : String) :
    List RegexAlt → Option ValidationResult
  | [] => none
  | p :: ps =>
    if altSearch p n then
      some ⟨false, msg, some ("pattern", p.pattern)⟩
    else
      scanPatterns msg n ps

/-- `ContentValidator._check_content_safety(text)`, parameterized over the
keyword list, the two regex groups and the NFKC normalization: normalize
`text.lower()`, then try the keyword group, the unsafe group and the
age group in order. -/
def checkContentSafety (kws : List String) (unsafePats agePats : List RegexAlt)
    (nfkc : String → String) (text : String) : ValidationResult :=
  let n := nfkc (pyLower text)
  match scanKeywords n kws with
  | some r => r
  | none =>
    match scanPatterns msgUnsafeHit n unsafePats with
    | some r => r
    | none =>
      match scanPatterns msgAgeHit n agePats with
      | some r => r
      | none => ⟨true, msgSafetyPassed, none⟩

/-- `NSFW_KEYWORDS` list of the module: empty in the source
("Redacted for brevity"). -/
def NSFW_KEYWORDS : List String := []

/-- `UNSAFE_PATTERNS` of the module. -/
def UNSAFE_PATTERNS : List RegexAlt :=
  [⟨"(?i)(violence|weapon|drug)", ["violence", "weapon", "drug"]⟩,
   ⟨"(?i)(explicit|mature|adult)", ["explicit", "mature", "adult"]⟩]

/-- `AGE_INAPPROPRIATE_CONTENT` of the module. -/
def AGE_INAPPROPRIATE_CONTENT : List RegexAlt :=
  [⟨"(?i)(fear|horror|scary)", ["fear", "horror", "scary"]⟩,
   ⟨"(?i)(complex|advanced|difficult)", ["complex", "advanced", "difficult"]⟩]

/-- Declarative reading of the safety scan: the three groups flattened, in
order, into (test, failure-result) pairs. -/
def safetyChecks (kws : List String) (unsafePats agePats : List RegexAlt) :
    List ((String → Bool) × ValidationResult) :=
  kws.map (fun k =>
      (fun n => strContains n k,
       (⟨false, msgKeywordHit, some ("keyword", k)⟩ : ValidationResult)))
    ++ unsafePats.map (fun p =>
      (fun n => altSearch p n,
       (⟨false, msgUnsafeHit, some ("pattern", p.pattern)⟩ : ValidationResult)))
    ++ agePats.map (fun p =>
      (fun n => altSearch p n,
       (⟨false, msgAgeHit, some ("pattern", p.pattern)⟩ : ValidationResult)))

/-! ## StoryRequest (`src/models/story_request.py`)

Unicode-dependent primitives (NFKC normalization, the control-character
categories, Unicode whitespace, the `\p{L}` letter class) are collected in a
`UnicodeModel` parameter; the claims hold for every such model.
`asciiUnicode` is the restriction to ASCII, under which NFKC is the identity
and the classes are the ASCII ones — exact on all concrete inputs used
below. -/

structure UnicodeModel where
  nfkc : String → String
  isCtrl : Char → Bool
  isWs : Char → Bool
  isLetter : Char → Bool

/-- Python whitespace for ASCII: space, tab, newline, carriage return,
vertical tab, form feed. -/
def pyWs (c : Char) : Bool :=
  c == ' ' || c == '\t' || c == '\n' || c == '\r' || c.val == 11 || c.val == 12

def asciiUnicode : UnicodeModel where
  nfkc := id
  isCtrl := fun c => c.val < 32 || c.val == 127
  isWs := pyWs
  isLetter := Char.isAlpha

/-- Python `s.split()` (split on whitespace runs, dropping empty pieces),
on character lists; `acc` is the current word accumulated in reverse. -/
def pySplitAux (ws : Char → Bool) : List Char → List Char → List (List Char)
  | [], [] => []
  | [], acc => [acc.reverse]
  | c :: t, acc =>
    if ws c then
      if acc.isEmpty then pySplitAux ws t [] else acc.reverse :: pySplitAux ws t []
    else
      pySplitAux ws t (c :: acc)

/-- `StoryRequest.sanitize_input`: NFKC-normalize, drop characters in a
control category, then `' '.join(s.split())`. -/
def sanitizeInput (u : UnicodeModel) (s : String) : String :=
  let normalized := u.nfkc s
  let sanitized := String.mk (normalized.data.filter (fun c => !u.isCtrl c))
  " ".intercalate ((pySplitAux u.isWs sanitized.data []).map String.mk)

/-- Validation failure (`AIServiceError` with a `details={"field": ...}` map):
the message and the offending field. -/
structure ValErr where
  message : String
  field : String
deriving DecidableEq, Repr

structure StoryRequest where
  character_name : String
  age : Int
  theme : String
  interests : List String
  additional_notes : Option String
deriving DecidableEq, Repr

def SUPPORTED_THEMES : List String :=
  ["Magical", "Adventure", "Educational", "Fantasy",
   "Nature", "Science", "Space", "Ocean",
   "Friendship", "Family"]

/-- A character admitted by the `[\p{L}\s-]` class. -/
def nameCharOk (u : UnicodeModel) (c : Char) : Bool :=
  u.isLetter c || u.isWs c || c == '-'

/-- `NAME_PATTERN.match`: `^[\p{L}\s-]{1,50}$`.  (The `$`-before-final-newline
re nuance is unreachable here: validation runs on sanitized strings, which
contain no newline.) -/
def namePatternMatch (u : UnicodeModel) (s : String) : Bool :=
  1 ≤ s.length && s.length ≤ 50 && s.data.all (nameCharOk u)

/-- `INTEREST_PATTERN.match`: `^[\p{L}\s-]{1,30}$`. -/
def interestPatternMatch (u : UnicodeModel) (s : String) : Bool :=
  1 ≤ s.length && s.length ≤ 30 && s.data.all (nameCharOk u)

/-- `validate_character_name` (the final length check is kept even though the
pattern already caps the length at 50). -/
def validateCharacterName (u : UnicodeModel) (name : String) : Except ValErr Unit :=
  if name = "" then
    .error ⟨"Character name is required", "character_name"⟩
  else if !namePatternMatch u name then
    .error ⟨"Character name must contain only letters, spaces, and hyphens",
            "character_name"⟩
  else if name.length > 50 then
    .error ⟨"Character name must not exceed 50 characters", "character_name"⟩
  else
    .ok ()

/-- `validate_age` (the `isinstance(age, int)` guard is carried by the
`Int` type). -/
def validateAge (age : Int) : Except ValErr Unit :=
  if !(3 ≤ age && age ≤ 12) then
    .error ⟨"Age must be between 3 and 12 years", "age"⟩
  else
    .ok ()

/-- `validate_theme`. -/
def validateTheme (theme : String) : Except ValErr Unit :=
  if theme = "" then
    .error ⟨"Theme is required", "theme"⟩
  else if !SUPPORTED_THEMES.contains theme then
    .error ⟨"Invalid theme selected", "theme"⟩
  else
    .ok ()

/-- `list(dict.fromkeys(l))`: drop every later duplicate, keeping first
occurrences in order; `seen` holds the keys already emitted. -/
def dedupGo (seen : List String) : List String → List String
  | [] => []
  | x :: xs =>
    if seen.contains x then dedupGo seen xs else x :: dedupGo (x :: seen) xs

def dedupFirst (l : List String) : List String := dedupGo [] l

/-- `validate_interests`: emptiness, count cap, per-entry pattern check in
order, then duplicate removal.  Returns the deduplicated list stored back
into the object. -/
def validateInterests (u : UnicodeModel) (interests : List String) :
    Except ValErr (List String) :=
  if interests.isEmpty then
    .error ⟨"At least one interest is required", "interests"⟩
  else if interests.length > 5 then
    .error ⟨"Maximum 5 interests allowed", "interests"⟩
  else
    match interests.find? (fun i => !interestPatternMatch u i) with
    | some _ =>
      .error ⟨"Interest must contain only letters, spaces, and hyphens",
              "interests"⟩
    | none => .ok (dedupFirst interests)

/-- `validate_additional_notes`. -/
def validateAdditionalNotes (notes : Option String) : Except ValErr Unit :=
  match notes with
  | none => .ok ()
  | some s =>
    if s.length > 500 then
      .error ⟨"Additional notes must not exceed 500 characters",
              "additional_notes"⟩
    else
      .ok ()

/-- The `additional_notes` sanitization of `__post_init__`: the
`if self.additional_notes:` guard skips `None` and the empty string. -/
def sanitizeNotes (u : UnicodeModel) : Option String → Option String
  | none => none
  | some s => if s = "" then some s else some (sanitizeInput u s)

/-- `StoryRequest.__post_init__`: sanitize `character_name`, `theme`, every
interest and the truthy `additional_notes`; then run the five field
validators in order (`validate`), the first failure aborting construction,
the deduplicated interests replacing the list. -/
def mkStoryRequest (u : UnicodeModel) (name : String) (age : Int)
    (theme : String) (interests : List String) (notes : Option String) :
    Except ValErr StoryRequest :=
  let name' := sanitizeInput u name
  let theme' := sanitizeInput u theme
  let interests' := interests.map (sanitizeInput u)
  let notes' := sanitizeNotes u notes
  match validateCharacterName u name' with
  | .error e => .error e
  | .ok _ =>
    match validateAge age with
    | .error e => .error e
    | .ok _ =>
      match validateTheme theme' with
      | .error e => .error e
      | .ok _ =>
        match validateInterests u interests' with
        | .error e => .error e
        | .ok ded =>
          match validateAdditionalNotes notes' with
          | .error e => .error e
          | .ok _ => .ok ⟨name', age, theme', ded, notes'⟩

/-- A value of the Python dict built by `StoryRequest.to_dict`. -/
inductive FieldVal where
  | str (v : String)
  | int (v : Int)
  | strList (v : List String)
deriving DecidableEq, Repr

/-- `StoryRequest.to_dict`: the four mandatory keys in insertion order, plus
`additional_notes` only when truthy (non-`None` and non-empty). -/
def toDict (r : StoryRequest) : List (String × FieldVal) :=
  [("character_name", .str r.character_name),
   ("age", .int r.age),
   ("theme", .str r.theme),
   ("interests", .strList r.interests)]
    ++ match r.additional_notes with
       | none => []
       | some s => if s = "" then [] else [("additional_notes", FieldVal.str s)]

/-! ## IllustrationRequest (`src/models/illustration_request.py`) -/

/-- The characters removed by `UNSAFE_PATTERN = r'[<>&;{}\[\]\\]'`
(the two braces written by code point). -/
def UNSAFE_CHARS : List Char :=
  ['<', '>', '&', ';', Char.ofNat 123, Char.ofNat 125, '[', ']', '\\']

/-- Python `str.strip()` (ASCII whitespace model). -/
def pyStrip (s : String) : String :=
  String.mk (((s.data.dropWhile pyWs).reverse.dropWhile pyWs).reverse)

/-- Python `s.replace(c, rep)` for a one-character pattern, on character
lists. -/
def replaceChar (c : Char) (rep : List Char) : List Char → List Char
  | [] => []
  | x :: t => if x = c then rep ++ replaceChar c rep t else x :: replaceChar c rep t

/-- `sanitize_string`: remove unsafe characters, collapse whitespace via
`' '.join(value.split())`, HTML-escape the five reserved characters
(in the source's replacement order), strip. -/
def sanitizeString (value : String) : String :=
  let removed := value.data.filter (fun c => !UNSAFE_CHARS.contains c)
  let joined := (" ".intercalate ((pySplitAux pyWs removed []).map String.mk)).data
  let escaped :=
    replaceChar '\x27' "&#x27;".data
      (replaceChar '"' "&quot;".data
        (replaceChar '>' "&gt;".data
          (replaceChar '<' "&lt;".data
            (replaceChar '&' "&amp;".data joined))))
  pyStrip (String.mk escaped)

/-- `validate_string_length(value, MIN_PROMPT_LENGTH, MAX_PROMPT_LENGTH)`:
reject empty, strip, check the stripped length, then sanitize. -/
def validateStringLength (value : String) (minLength maxLength : Nat) :
    Except ValErr String :=
  if value = "" then
    .error ⟨"Invalid string input", "prompt"⟩
  else
    let v := pyStrip value
    if !(minLength ≤ v.length && v.length ≤ maxLength) then
      .error ⟨"String length must be between 10 and 1000 characters", "prompt"⟩
    else
      .ok (sanitizeString v)

/-- The `prompt` field: pydantic's `Field(min_length=10, max_length=1000)`
constraint on the raw value, then the `validate_prompt` validator, which
delegates to `validate_string_length`. -/
def validatePrompt (prompt : String) : Except ValErr String :=
  if !(10 ≤ prompt.length && prompt.length ≤ 1000) then
    .error ⟨"String length constraint violated", "prompt"⟩
  else
    validateStringLength prompt 10 1000

def SUPPORTED_STYLES : List String :=
  ["children\x27s book", "watercolor", "digital art", "cartoon", "realistic"]

/-- `validate_style`: case-insensitive membership in `SUPPORTED_STYLES`, then
canonicalization to the first enumeration entry with the same lowercasing
(`next(s for s in SUPPORTED_STYLES if s.lower() == value.lower())`). -/
def validateStyleIll (value : String) : Except ValErr String :=
  if value = "" || !(SUPPORTED_STYLES.map pyLower).contains (pyLower value) then
    .error ⟨"Invalid illustration style", "style"⟩
  else
    match SUPPORTED_STYLES.find? (fun s => pyLower s == pyLower value) with
    | some s => .ok s
    | none => .error ⟨"Invalid illustration style", "style"⟩

def dimBoundsMsg : String := "Image dimensions must be between 256 and 1024 pixels"
def aspectMsg : String := "Image aspect ratio must be between 1:2 and 2:1"
def multipleMsg : String := "Image dimensions must be multiples of 8"

/-- `validate_image_dimensions`: bounds check, then aspect-ratio check.  The
source compares the float `width / height` against `0.5` and `2.0`; on the
integers reaching this point (both in `[256, 1024]`, so the quotient is at
least `1/(2*1024*1024)` away from either bound unless equal to it, far above
double rounding error) that float test coincides with the exact rational one,
embedded as the integer inequalities `h ≤ 2*w ∧ w ≤ 2*h`. -/
def validateImageDimensions (wh : Int × Int) : Except ValErr (Int × Int) :=
  let w := wh.1
  let h := wh.2
  if !(256 ≤ w && w ≤ 1024 && 256 ≤ h && h ≤ 1024) then
    .error ⟨dimBoundsMsg, "size"⟩
  else if !(h ≤ 2 * w && w ≤ 2 * h) then
    .error ⟨aspectMsg, "size"⟩
  else
    .ok (w, h)

/-- `validate_size`: the dimension/aspect validation first, then the
SDXL multiple-of-8 check. -/
def validateSizeIll (wh : Int × Int) : Except ValErr (Int × Int) :=
  match validateImageDimensions wh with
  | .error e => .error e
  | .ok d =>
    if d.1 % 8 != 0 || d.2 % 8 != 0 then
      .error ⟨multipleMsg, "size"⟩
    else
      .ok d

structure IllustrationRequest where
  prompt : String
  style : String
  size : Int × Int
  enhance_faces : Bool
deriving DecidableEq, Repr

/-- `IllustrationRequest` construction: pydantic runs the per-field
validators in declaration order (`prompt`, `style`, `size`); the first
failure aborts construction. -/
def mkIllustrationRequest (prompt style : String) (size : Int × Int)
    (enhance_faces : Bool) : Except ValErr IllustrationRequest :=
  match validatePrompt prompt with
  | .error e => .error e
  | .ok p =>
    match validateStyleIll style with
    | .error e => .error e
    | .ok st =>
      match validateSizeIll size with
      | .error e => .error e
      | .ok sz => .ok ⟨p, st, sz, enhance_faces⟩

deriving instance DecidableEq for Except

/-! ## Retry lemmas -/

/-- If every attempt fails with a retryable fault, the loop runs all `m`
iterations, sleeps the full backoff series (including one sleep after the
final attempt), and ends in `RETRY_FAILED` wrapping the fault of the last
attempt. -/
theorem retryAux_allRetryFail {ε α : Type} (op : Nat → Except ε α)
    (isR : ε → Bool) (delay : ℚ)
    (h : ∀ n, ∃ e, op n = .error e ∧ isR e = true) :
    ∀ (m attempt : Nat) (last : Option ε), 0 < m →
      ∃ elast, op (attempt + m - 1) = .error elast ∧
        retryAux op isR delay attempt m last =
          (.retryFailed (some elast), m, delay * 2 ^ attempt * (2 ^ m - 1)) := by
  intro m
  induction m with
  | zero => intro attempt last hm; exact absurd hm (by simp)
  | succ k ih =>
    intro attempt last _
    obtain ⟨e, he, hr⟩ := h attempt
    rcases Nat.eq_zero_or_pos k with hk | hk
    · subst hk
      refine ⟨e, by simpa using he, ?_⟩
      simp [retryAux, he, hr]
      ring
    · obtain ⟨elast, hel, heq⟩ := ih (attempt + 1) (some e) hk
      refine ⟨elast, ?_, ?_⟩
      · rwa [show attempt + 1 + k - 1 = attempt + (k + 1) - 1 by omega] at hel
      · simp [retryAux, he, hr, heq]
        rw [pow_succ, pow_succ]
        ring

/-- If attempts `0 ≤ i < k` (relative to `attempt`) fail retryably and
attempt `k` succeeds, the loop returns the success after `k + 1` calls,
having slept the first `k` backoff terms. -/
theorem retryAux_succeedAt {ε α : Type} (op : Nat → Except ε α)
    (isR : ε → Bool) (delay : ℚ) (a : α) :
    ∀ (k m attempt : Nat) (last : Option ε), k < m →
      (∀ i, i < k → ∃ e, op (attempt + i) = .error e ∧ isR e = true) →
      op (attempt + k) = .ok a →
      retryAux op isR delay attempt m last =
        (.success a, k + 1, delay * 2 ^ attempt * (2 ^ k - 1)) := by
  intro k
  induction k with
  | zero =>
    intro m attempt last hm _ hok
    obtain ⟨m', rfl⟩ : ∃ m', m = m' + 1 := ⟨m - 1, by omega⟩
    simp only [Nat.add_zero] at hok
    simp [retryAux, hok]
  | succ k ih =>
    intro m attempt last hm herr hok
    obtain ⟨m', rfl⟩ : ∃ m', m = m' + 1 := ⟨m - 1, by omega⟩
    obtain ⟨e, he, hr⟩ := herr 0 (Nat.succ_pos k)
    simp only [Nat.add_zero] at he
    have step := ih m' (attempt + 1) (some e) (by omega)
      (fun i hi => by
        have := herr (i + 1) (by omega)
        rwa [show attempt + (i + 1) = attempt + 1 + i by omega] at this)
      (by rwa [show attempt + 1 + k = attempt + (k + 1) by omega])
    simp [retryAux, he, hr, step]
    rw [pow_succ, pow_succ]
    ring

/-- A non-retryable failure on the current attempt is re-raised at once:
one call, no sleep. -/
theorem retryAux_nonretryable {ε α : Type} (op : Nat → Except ε α)
    (isR : ε → Bool) (delay : ℚ) (e : ε) (attempt : Nat) (last : Option ε)
    (m : Nat) (hm : 0 < m) (he : op attempt = .error e) (hr : isR e = false) :
    retryAux op isR delay attempt m last = (.raised e, 1, 0) := by
  obtain ⟨m', rfl⟩ : ∃ m', m = m' + 1 := ⟨m - 1, by omega⟩
  simp [retryAux, he, hr]

/-! ## Claims C1, C2, C8 -/

/-- C1 (counterexample to the claim as stated): for an operation that always
fails with a retryable fault and `maxAttempts = 3`, `baseDelay = 1`, the
orchestrator does make exactly 3 attempts and end in `RETRY_FAILED` wrapping
the last fault, but the total slept time is `1 + 2 + 4 = 7`, not the `1 + 2`
that "no further delay after the final attempt" would give: the loop sleeps
`delay * 2^2` after the third (final) attempt before raising. -/
theorem c1_counterexample :
    retryRun (fun _ => (.error 0 : Except Nat Nat)) (fun _ => true) 3 1 =
      (.retryFailed (some 0), 3, 7) ∧ (7 : ℚ) ≠ 1 + 2 := by
  constructor
  · obtain ⟨e, he, heq⟩ :=
      retryAux_allRetryFail (fun _ => (.error 0 : Except Nat Nat)) (fun _ => true)
        1 (fun _ => ⟨0, rfl, rfl⟩) 3 0 none (by norm_num)
    obtain rfl : (0 : Nat) = e := by simpa using he
    rw [retryRun, heq]
    norm_num
  · norm_num

/-- C1 (amended): for an operation failing with a retryable fault on every
attempt and `maxAttempts = 3`, the orchestrator makes exactly 3 attempts and
produces the `RETRY_FAILED` outcome wrapping the fault of the last attempt,
with no fourth attempt; but before raising it sleeps one final backoff term,
so the total slept time is `delay * (1 + 2 + 4)`, not `delay * (1 + 2)`. -/
theorem c1_retry_exhausts {ε α : Type} (op : Nat → Except ε α)
    (isR : ε → Bool) (delay : ℚ)
    (h : ∀ n, ∃ e, op n = .error e ∧ isR e = true) :
    ∃ elast, op 2 = .error elast ∧
      retryRun op isR 3 delay =
        (.retryFailed (some elast), 3, delay * (1 + 2 + 4)) := by
  obtain ⟨elast, hel, heq⟩ := retryAux_allRetryFail op isR delay h 3 0 none (by norm_num)
  refine ⟨elast, by simpa using hel, ?_⟩
  rw [retryRun, heq]
  norm_num

/-- Witness for `c1_retry_exhausts` at a concrete always-failing operation. -/
theorem c1_retry_exhausts_witness :
    retryRun (fun _ => (.error 9 : Except Nat Nat)) (fun _ => true) 3 2 =
      (.retryFailed (some 9), 3, 2 * (1 + 2 + 4)) := by
  obtain ⟨e, he, heq⟩ :=
    c1_retry_exhausts (fun _ => (.error 9 : Except Nat Nat)) (fun _ => true) 2
      (fun _ => ⟨9, rfl, rfl⟩)
  obtain rfl : (9 : Nat) = e := by simpa using he
  exact heq

/-- C2: a non-retryable fault on the first attempt is re-raised after exactly
one attempt with no backoff sleep; a success on attempt `k` (after retryable
failures before it) is returned immediately after `k + 1` attempts, with only
the `k` backoff sleeps already taken (`delay * (2^k - 1)` in total). -/
theorem c2_nonretryable_and_success {ε α : Type} (op : Nat → Except ε α)
    (isR : ε → Bool) (delay : ℚ) (maxAttempts : Nat) (hm : 0 < maxAttempts) :
    (∀ e, op 0 = .error e → isR e = false →
        retryRun op isR maxAttempts delay = (.raised e, 1, 0)) ∧
    (∀ (a : α) (k : Nat), k < maxAttempts →
        (∀ i, i < k → ∃ e, op i = .error e ∧ isR e = true) →
        op k = .ok a →
        retryRun op isR maxAttempts delay =
          (.success a, k + 1, delay * (2 ^ k - 1))) := by
  constructor
  · intro e he hr
    exact retryAux_nonretryable op isR delay e 0 none maxAttempts hm he hr
  · intro a k hk herr hok
    have := retryAux_succeedAt op isR delay a k maxAttempts 0 none hk
      (fun i hi => by simpa using herr i hi) (by simpa using hok)
    rw [retryRun, this]
    norm_num

/-- Witness for `c2_nonretryable_and_success`: a concrete non-retryable fault
makes one attempt with no sleep; a concrete operation succeeding on the third
attempt returns its value after the two earlier backoff sleeps. -/
theorem c2_witness :
    retryRun (fun _ => (.error 5 : Except Nat Nat)) (fun _ => false) 3 1 =
      (.raised 5, 1, 0) ∧
    retryRun (fun n => if n < 2 then (.error n : Except Nat Nat) else .ok 7)
      (fun _ => true) 3 1 = (.success 7, 3, 3) := by
  constructor
  · exact (c2_nonretryable_and_success (fun _ => (.error 5 : Except Nat Nat))
      (fun _ => false) 1 3 (by norm_num)).1 5 rfl rfl
  · have := (c2_nonretryable_and_success
      (fun n => if n < 2 then (.error n : Except Nat Nat) else .ok 7)
      (fun _ => true) 1 3 (by norm_num)).2 7 2 (by norm_num)
      (fun i hi => ⟨i, by simp [hi], rfl⟩) (by norm_num)
    rw [this]
    norm_num

/-- C8: a fault of any type outside the enumerated ones is classified
`(500, API_ERROR)` by both provider handlers, is non-retryable, and the retry
loop (default `MAX_RETRIES = 3`) re-raises it after a single attempt with no
sleep. -/
theorem c8_default_taxonomy (tag : String) :
    openaiStatusMessage (.other tag) = (500, msgAPI_ERROR) ∧
    sdStatusMessage (.other tag) = (500, msgAPI_ERROR) ∧
    isRetryableError (.other tag) = false ∧
    ∀ delay : ℚ,
      retryRun
        (fun _ => (.error (UpstreamFault.other tag) : Except UpstreamFault Unit))
        isRetryableError 3 delay = (.raised (.other tag), 1, 0) := by
  refine ⟨rfl, rfl, rfl, fun delay => ?_⟩
  exact retryAux_nonretryable _ _ delay _ 0 none 3 (by norm_num) rfl rfl

/-! ## Content-safety lemmas and claim C3 -/

theorem scanKeywords_hit (n : String) :
    ∀ kws : List String, ∀ k ∈ kws, strContains n k = true →
      ∃ r, scanKeywords n kws = some r ∧ r.is_valid = false := by
  intro kws
  induction kws with
  | nil => intro k hk; exact absurd hk (by simp)
  | cons x xs ih =>
    intro k hk hc
    by_cases hx : strContains n x
    · refine ⟨⟨false, msgKeywordHit, some ("keyword", x)⟩, ?_, rfl⟩
      simp [scanKeywords, hx]
    · rcases List.mem_cons.mp hk with rfl | hk'
      · exact absurd hc (by simp [hx])
      · obtain ⟨r, hr, hv⟩ := ih k hk' hc
        exact ⟨r, by simp [scanKeywords, hx, hr], hv⟩

/-- `_check_content_safety` equals the single first-match scan over the three
flattened groups. -/
theorem checkContentSafety_eq_firstMatch (nfkc : String → String)
    (text : String) :
    ∀ (kws : List String) (unsafePats agePats : List RegexAlt),
      checkContentSafety kws unsafePats agePats nfkc text =
        Option.elim
          ((safetyChecks kws unsafePats agePats).find?
            (fun c => c.1 (nfkc (pyLower text))))
          ⟨true, msgSafetyPassed, none⟩ Prod.snd := by
  intro kws
  induction kws with
  | cons k ks ih =>
    intro u a
    by_cases h : strContains (nfkc (pyLower text)) k
    · simp [checkContentSafety, scanKeywords, safetyChecks, List.find?, h]
    · have := ih u a
      simp [checkContentSafety, scanKeywords, safetyChecks, List.find?, h]
        at this ⊢
      exact this
  | nil =>
    intro u
    induction u with
    | cons q qs ihu =>
      intro a
      by_cases h : altSearch q (nfkc (pyLower text))
      · simp [checkContentSafety, scanKeywords, scanPatterns, safetyChecks,
          List.find?, h]
      · have := ihu a
        simp [checkContentSafety, scanKeywords, scanPatterns, safetyChecks,
          List.find?, h] at this ⊢
        exact this
    | nil =>
      intro a
      induction a with
      | cons q qs iha =>
        by_cases h : altSearch q (nfkc (pyLower text))
        · simp [checkContentSafety, scanKeywords, scanPatterns, safetyChecks,
            List.find?, h]
        · simpa [checkContentSafety, scanKeywords, scanPatterns, safetyChecks,
            List.find?, h] using iha
      | nil => rfl

theorem scanKeywords_clear (n : String) :
    ∀ kws : List String, (∀ k ∈ kws, strContains n k = false) →
      scanKeywords n kws = none := by
  intro kws
  induction kws with
  | nil => intro; rfl
  | cons x xs ih =>
    intro h
    simp [scanKeywords, h x (by simp), ih (fun k hk => h k (by simp [hk]))]

theorem scanPatterns_clear (msg n : String) :
    ∀ ps : List RegexAlt, (∀ p ∈ ps, altSearch p n = false) →
      scanPatterns msg n ps = none := by
  intro ps
  induction ps with
  | nil => intro; rfl
  | cons q qs ih =>
    intro h
    simp [scanPatterns, h q (by simp), ih (fun p hp => h p (by simp [hp]))]

/-- C3: `_check_content_safety` is the first-match scan over the three
pattern groups in order (keywords, unsafe-topic regexes, age-inappropriate
regexes), applied to the normalized lowercased text; the first matching
entry short-circuits with `is_valid = false` and its identity in `details`.
In particular a text containing a denylisted keyword yields
`is_valid = false`, and a text matching none of the three groups yields
the `is_valid = true` result. -/
theorem c3_content_safety_first_match (kws : List String)
    (unsafePats agePats : List RegexAlt) (nfkc : String → String)
    (text : String) :
    (checkContentSafety kws unsafePats agePats nfkc text =
      Option.elim
        ((safetyChecks kws unsafePats agePats).find?
          (fun c => c.1 (nfkc (pyLower text))))
        ⟨true, msgSafetyPassed, none⟩ Prod.snd) ∧
    (∀ k ∈ kws, strContains (nfkc (pyLower text)) k = true →
      (checkContentSafety kws unsafePats agePats nfkc text).is_valid = false) ∧
    ((∀ k ∈ kws, strContains (nfkc (pyLower text)) k = false) →
      (∀ p ∈ unsafePats ++ agePats, altSearch p (nfkc (pyLower text)) = false) →
      checkContentSafety kws unsafePats agePats nfkc text =
        ⟨true, msgSafetyPassed, none⟩) := by
  refine ⟨checkContentSafety_eq_firstMatch nfkc text kws unsafePats agePats,
    ?_, ?_⟩
  · intro k hk hc
    obtain ⟨r, hr, hv⟩ := scanKeywords_hit (nfkc (pyLower text)) kws k hk hc
    rw [checkContentSafety]
    simp only [hr]
    exact hv
  · intro hks hps
    rw [checkContentSafety]
    rw [scanKeywords_clear _ kws hks,
        scanPatterns_clear msgUnsafeHit _ unsafePats
          (fun p hp => hps p (by simp [hp])),
        scanPatterns_clear msgAgeHit _ agePats
          (fun p hp => hps p (by simp [hp]))]

/-- Witness for `c3_content_safety_first_match`: a nonempty denylist catches
its keyword; the module's actual pattern groups (empty `NSFW_KEYWORDS`,
`UNSAFE_PATTERNS`, `AGE_INAPPROPRIATE_CONTENT`) pass a clean text and flag a
scary one. -/
theorem c3_witness :
    (checkContentSafety ["forbidden"] UNSAFE_PATTERNS AGE_INAPPROPRIATE_CONTENT
      id "a Forbidden tale").is_valid = false ∧
    checkContentSafety NSFW_KEYWORDS UNSAFE_PATTERNS AGE_INAPPROPRIATE_CONTENT
      id "a friendly dragon reading books" = ⟨true, msgSafetyPassed, none⟩ ∧
    checkContentSafety NSFW_KEYWORDS UNSAFE_PATTERNS AGE_INAPPROPRIATE_CONTENT
      id "a SCARY story" =
      ⟨false, msgAgeHit, some ("pattern", "(?i)(fear|horror|scary)")⟩ := by
  refine ⟨?_, ?_, ?_⟩
  · exact (c3_content_safety_first_match ["forbidden"] UNSAFE_PATTERNS
      AGE_INAPPROPRIATE_CONTENT id "a Forbidden tale").2.1 "forbidden"
      (by simp) (by decide)
  · exact (c3_content_safety_first_match NSFW_KEYWORDS UNSAFE_PATTERNS
      AGE_INAPPROPRIATE_CONTENT id
      "a friendly dragon reading books").2.2 (by simp [NSFW_KEYWORDS])
      (by decide)
  · have h := (c3_content_safety_first_match NSFW_KEYWORDS UNSAFE_PATTERNS
      AGE_INAPPROPRIATE_CONTENT id "a SCARY story").1
    rw [h]
    decide

/-! ## Interests deduplication: claims C4, C10, C7 -/

theorem dedupGo_mem : ∀ (l seen : List String) (x : String),
    x ∈ dedupGo seen l ↔ x ∈ l ∧ x ∉ seen := by
  intro l
  induction l with
  | nil => intro seen x; simp [dedupGo]
  | cons y ys ih =>
    intro seen x
    by_cases hy : y ∈ seen
    · have hc : seen.contains y = true := by simpa using hy
      rw [dedupGo]
      simp only [hc, if_true]
      rw [ih]
      constructor
      · rintro ⟨hx, hxs⟩
        exact ⟨List.mem_cons_of_mem _ hx, hxs⟩
      · rintro ⟨hx, hxs⟩
        rcases List.mem_cons.mp hx with rfl | hmem
        · exact absurd hy hxs
        · exact ⟨hmem, hxs⟩
    · have hc : seen.contains y = false := by simpa using hy
      rw [dedupGo]
      simp only [hc, Bool.false_eq_true, if_false]
      by_cases hxy : x = y
      · subst hxy
        simp [hy]
      · simp only [List.mem_cons, ih (y :: seen) x, hxy, false_or]

theorem dedupGo_nodup : ∀ (l seen : List String), (dedupGo seen l).Nodup := by
  intro l
  induction l with
  | nil => intro seen; simp [dedupGo]
  | cons y ys ih =>
    intro seen
    by_cases hy : y ∈ seen
    · have hc : seen.contains y = true := by simpa using hy
      rw [dedupGo]
      simp only [hc, if_true]
      exact ih seen
    · have hc : seen.contains y = false := by simpa using hy
      rw [dedupGo]
      simp only [hc, Bool.false_eq_true, if_false, List.nodup_cons]
      refine ⟨fun hmem => ?_, ih (y :: seen)⟩
      exact ((dedupGo_mem ys (y :: seen) y).mp hmem).2 (by simp)

theorem dedupGo_sublist : ∀ (l seen : List String),
    List.Sublist (dedupGo seen l) l := by
  intro l
  induction l with
  | nil => intro seen; simp [dedupGo]
  | cons y ys ih =>
    intro seen
    by_cases hy : seen.contains y
    · rw [dedupGo]
      simp only [hy, if_true]
      exact (ih seen).cons y
    · rw [dedupGo]
      simp only [hy, Bool.false_eq_true, if_false]
      exact (ih (y :: seen)).cons₂ y

theorem validateInterests_ok_iff (u : UnicodeModel) (l ded : List String) :
    validateInterests u l = .ok ded ↔
      l ≠ [] ∧ l.length ≤ 5 ∧ (∀ i ∈ l, interestPatternMatch u i = true) ∧
        ded = dedupFirst l := by
  constructor
  · intro h
    unfold validateInterests at h
    by_cases h1 : l.isEmpty
    · simp [h1] at h
    · by_cases h2 : l.length > 5
      · simp [h1, h2] at h
      · cases hf : l.find? (fun i => !interestPatternMatch u i) with
        | some i => simp [h1, h2, hf] at h
        | none =>
          simp [h1, h2, hf] at h
          refine ⟨by simpa [List.isEmpty_iff] using h1, by omega, ?_, h.symm⟩
          intro i hi
          have := List.find?_eq_none.mp hf i hi
          simpa using this
  · rintro ⟨h1, h2, h3, rfl⟩
    unfold validateInterests
    have e1 : l.isEmpty = false := by simpa [List.isEmpty_iff] using h1
    have e2 : ¬l.length > 5 := by omega
    have e3 : l.find? (fun i => !interestPatternMatch u i) = none := by
      rw [List.find?_eq_none]
      intro x hx
      simp [h3 x hx]
    simp [e1, e2, e3]

/-- C4: when every interest passes the pattern check (and the count is in
bounds), validation returns the list with later duplicates removed — a
duplicate-free sublist (hence first-seen order preserved) with the same
members; and whenever some interest fails its pattern check, validation
fails and no deduplicated list is produced. -/
theorem c4_interests_dedup (u : UnicodeModel) (interests : List String)
    (hne : interests ≠ []) (hlen : interests.length ≤ 5)
    (hpat : ∀ i ∈ interests, interestPatternMatch u i = true) :
    validateInterests u interests = .ok (dedupFirst interests) ∧
    (dedupFirst interests).Nodup ∧
    List.Sublist (dedupFirst interests) interests ∧
    (∀ x, x ∈ dedupFirst interests ↔ x ∈ interests) ∧
    (∀ l : List String, (∃ i ∈ l, interestPatternMatch u i = false) →
      ∀ ded, validateInterests u l ≠ .ok ded) := by
  refine ⟨(validateInterests_ok_iff u interests _).mpr ⟨hne, hlen, hpat, rfl⟩,
    dedupGo_nodup interests [], dedupGo_sublist interests [], ?_, ?_⟩
  · intro x
    rw [dedupFirst, dedupGo_mem]
    simp
  · rintro l ⟨i, hi, hbad⟩ ded hok
    obtain ⟨-, -, h3, -⟩ := (validateInterests_ok_iff u l ded).mp hok
    exact absurd (h3 i hi) (by simp [hbad])

/-- Witness for `c4_interests_dedup`: `["space","space","art"]` validates to
`["space","art"]`. -/
theorem c4_witness :
    validateInterests asciiUnicode ["space", "space", "art"] =
      .ok ["space", "art"] ∧
    (["space", "art"] : List String).Nodup := by
  have h := c4_interests_dedup asciiUnicode ["space", "space", "art"]
    (by decide) (by decide) (by decide)
  have e : dedupFirst ["space", "space", "art"] = ["space", "art"] := by decide
  refine ⟨?_, by decide⟩
  have h1 := h.1
  rw [e] at h1
  exact h1

/-- Inversion of `StoryRequest` construction: success is equivalent to all
five validators succeeding on the sanitized fields, the result holding the
sanitized name and theme, the deduplicated sanitized interests, and the
guarded notes. -/
theorem mkStoryRequest_ok_iff (u : UnicodeModel) (name : String) (age : Int)
    (theme : String) (interests : List String) (notes : Option String)
    (req : StoryRequest) :
    mkStoryRequest u name age theme interests notes = .ok req ↔
      validateCharacterName u (sanitizeInput u name) = .ok () ∧
      validateAge age = .ok () ∧
      validateTheme (sanitizeInput u theme) = .ok () ∧
      validateInterests u (interests.map (sanitizeInput u)) =
        .ok (dedupFirst (interests.map (sanitizeInput u))) ∧
      validateAdditionalNotes (sanitizeNotes u notes) = .ok () ∧
      req = ⟨sanitizeInput u name, age, sanitizeInput u theme,
             dedupFirst (interests.map (sanitizeInput u)),
             sanitizeNotes u notes⟩ := by
  simp only [mkStoryRequest]
  cases h1 : validateCharacterName u (sanitizeInput u name) with
  | error e => simp [h1]
  | ok v =>
    cases v
    simp only [h1]
    cases h2 : validateAge age with
    | error e => simp [h2]
    | ok v =>
      cases v
      simp only [h2]
      cases h3 : validateTheme (sanitizeInput u theme) with
      | error e => simp [h3]
      | ok v =>
        cases v
        simp only [h3]
        cases h4 : validateInterests u (interests.map (sanitizeInput u)) with
        | error e => simp [h4]
        | ok ded =>
          have hded : ded = dedupFirst (interests.map (sanitizeInput u)) :=
            ((validateInterests_ok_iff u _ ded).mp h4).2.2.2
          subst hded
          simp only [h4]
          cases h5 : validateAdditionalNotes (sanitizeNotes u notes) with
          | error e => simp [h5]
          | ok v =>
            cases v
            simp only [h5]
            simp [eq_comm]

theorem interestPatternMatch_length (u : UnicodeModel) (i : String)
    (h : interestPatternMatch u i = true) : i.length ≤ 30 := by
  simp only [interestPatternMatch, Bool.and_eq_true, decide_eq_true_eq] at h
  exact h.1.2

/-- C10: every successfully constructed `StoryRequest` has only interests of
at most 30 characters, and an interest whose sanitized form exceeds 30
characters makes construction fail (whatever its characters are). -/
theorem c10_interest_length_cap (u : UnicodeModel) (name : String) (age : Int)
    (theme : String) (interests : List String) (notes : Option String) :
    (∀ req, mkStoryRequest u name age theme interests notes = .ok req →
      ∀ i ∈ req.interests, i.length ≤ 30) ∧
    ((∃ i ∈ interests, 30 < (sanitizeInput u i).length) →
      ∀ req, mkStoryRequest u name age theme interests notes ≠ .ok req) := by
  constructor
  · intro req hok i hi
    obtain ⟨-, -, -, h4, -, hreq⟩ :=
      (mkStoryRequest_ok_iff u name age theme interests notes req).mp hok
    obtain ⟨-, -, hpat, -⟩ := (validateInterests_ok_iff u _ _).mp h4
    subst hreq
    have hmem : i ∈ interests.map (sanitizeInput u) :=
      ((dedupGo_mem _ [] i).mp hi).1
    exact interestPatternMatch_length u i (hpat i hmem)
  · rintro ⟨i, hi, hlen⟩ req hok
    obtain ⟨-, -, -, h4, -, -⟩ :=
      (mkStoryRequest_ok_iff u name age theme interests notes req).mp hok
    obtain ⟨-, -, hpat, -⟩ := (validateInterests_ok_iff u _ _).mp h4
    have := interestPatternMatch_length u _
      (hpat (sanitizeInput u i) (List.mem_map_of_mem _ hi))
    omega

/-- Witness for `c10_interest_length_cap`: a valid request's interests are
all short, and a letters-only interest of 31 characters is rejected. -/
theorem c10_witness :
    (∀ i ∈ (⟨"Mia", 8, "Adventure", ["space"],
        (none : Option String)⟩ : StoryRequest).interests, i.length ≤ 30) ∧
    mkStoryRequest asciiUnicode "Mia" 8 "Adventure"
        ["aaaaaaaaaaaaaaaaaaaaaaaaaaaaaaa"] none ≠
      .ok ⟨"Mia", 8, "Adventure", ["aaaaaaaaaaaaaaaaaaaaaaaaaaaaaaa"], none⟩ := by
  constructor
  · exact (c10_interest_length_cap asciiUnicode "Mia" 8 "Adventure" ["space"]
      none).1 ⟨"Mia", 8, "Adventure", ["space"], none⟩ (by decide)
  · exact (c10_interest_length_cap asciiUnicode "Mia" 8 "Adventure"
      ["aaaaaaaaaaaaaaaaaaaaaaaaaaaaaaa"] none).2
      ⟨"aaaaaaaaaaaaaaaaaaaaaaaaaaaaaaa", by decide, by decide⟩
      ⟨"Mia", 8, "Adventure", ["aaaaaaaaaaaaaaaaaaaaaaaaaaaaaaa"], none⟩

/-- C7: for any age outside `[3, 12]`, construction fails — with the error
naming field `age` whenever the (earlier) name check passes — and no
`StoryRequest` value is produced; ages inside the range pass the age
check. -/
theorem c7_age_range (u : UnicodeModel) (name theme : String)
    (interests : List String) (notes : Option String) (age : Int) :
    (¬(3 ≤ age ∧ age ≤ 12) →
      (∀ req, mkStoryRequest u name age theme interests notes ≠ .ok req) ∧
      (validateCharacterName u (sanitizeInput u name) = .ok () →
        mkStoryRequest u name age theme interests notes =
          .error ⟨"Age must be between 3 and 12 years", "age"⟩)) ∧
    (3 ≤ age → age ≤ 12 → validateAge age = .ok ()) := by
  constructor
  · intro hout
    have hva : validateAge age =
        .error ⟨"Age must be between 3 and 12 years", "age"⟩ := by
      have hc : (!(3 ≤ age && age ≤ 12 : Bool)) = true := by
        simp
        omega
      simp [validateAge, hc]
    constructor
    · intro req hok
      obtain ⟨-, h2, -⟩ :=
        (mkStoryRequest_ok_iff u name age theme interests notes req).mp hok
      rw [hva] at h2
      exact absurd h2 (by simp)
    · intro h1
      simp [mkStoryRequest, h1, hva]
  · intro h3 h12
    have hc : (!(3 ≤ age && age ≤ 12 : Bool)) = false := by
      simp
      omega
    simp [validateAge, hc]

/-- Witness for `c7_age_range`: age 2 fails with field `age`; age 8 passes
the age check. -/
theorem c7_witness :
    (∀ req, mkStoryRequest asciiUnicode "Mia" 2 "Adventure" ["space"] none ≠
      .ok req) ∧
    mkStoryRequest asciiUnicode "Mia" 2 "Adventure" ["space"] none =
      .error ⟨"Age must be between 3 and 12 years", "age"⟩ ∧
    validateAge 8 = .ok () := by
  have h := c7_age_range asciiUnicode "Mia" "Adventure" ["space"] none 2
  refine ⟨(h.1 (by omega)).1, (h.1 (by omega)).2 (by decide), ?_⟩
  exact (c7_age_range asciiUnicode "Mia" "Adventure" ["space"] none 8).2
    (by omega) (by omega)

/-! ## Claim C9: `to_dict` round-trip -/

/-- C9 (counterexample to the claim as stated): with the supplied values
`character_name="Mia"`, `age=8`, `theme="Adventure"`,
`interests=["space","space","art"]`, `additional_notes=""` — all inside the
documented ranges — construction succeeds, yet `to_dict` does not recover the
supplied values: the stored (and emitted) interests are the deduplicated
`["space","art"]`, and the `additional_notes` key is absent from the
dictionary even though the field was supplied (and is stored as `""`). -/
theorem c9_counterexample :
    mkStoryRequest asciiUnicode "Mia" 8 "Adventure" ["space", "space", "art"]
        (some "") =
      .ok ⟨"Mia", 8, "Adventure", ["space", "art"], some ""⟩ ∧
    (toDict ⟨"Mia", 8, "Adventure", ["space", "art"], some ""⟩).lookup
        "additional_notes" = none ∧
    (toDict ⟨"Mia", 8, "Adventure", ["space", "art"], some ""⟩).lookup
        "interests" = some (.strList ["space", "art"]) := by
  refine ⟨by decide, by decide, by decide⟩

/-- C9 (amended): for every valid field combination (all five validators
pass), construction succeeds and `to_dict` recovers exactly the validated
field values — the sanitized name and theme, the age, the sanitized
deduplicated interests — and recovers `additional_notes` precisely when it is
present and non-empty; when it is the empty string the key is omitted. -/
theorem c9_roundtrip (u : UnicodeModel) (name : String) (age : Int)
    (theme : String) (interests : List String) (notes : Option String)
    (h1 : validateCharacterName u (sanitizeInput u name) = .ok ())
    (h2 : validateAge age = .ok ())
    (h3 : validateTheme (sanitizeInput u theme) = .ok ())
    (h4 : validateInterests u (interests.map (sanitizeInput u)) =
      .ok (dedupFirst (interests.map (sanitizeInput u))))
    (h5 : validateAdditionalNotes (sanitizeNotes u notes) = .ok ()) :
    ∃ req, mkStoryRequest u name age theme interests notes = .ok req ∧
      req.character_name = sanitizeInput u name ∧
      req.age = age ∧
      req.theme = sanitizeInput u theme ∧
      req.interests = dedupFirst (interests.map (sanitizeInput u)) ∧
      req.additional_notes = sanitizeNotes u notes ∧
      (toDict req).lookup "character_name" = some (.str req.character_name) ∧
      (toDict req).lookup "age" = some (.int req.age) ∧
      (toDict req).lookup "theme" = some (.str req.theme) ∧
      (toDict req).lookup "interests" = some (.strList req.interests) ∧
      (∀ s, req.additional_notes = some s → s ≠ "" →
        (toDict req).lookup "additional_notes" = some (.str s)) ∧
      (req.additional_notes = some "" →
        (toDict req).lookup "additional_notes" = none) := by
  refine ⟨⟨sanitizeInput u name, age, sanitizeInput u theme,
      dedupFirst (interests.map (sanitizeInput u)), sanitizeNotes u notes⟩,
    (mkStoryRequest_ok_iff u name age theme interests notes _).mpr
      ⟨h1, h2, h3, h4, h5, rfl⟩,
    rfl, rfl, rfl, rfl, rfl, rfl, rfl, rfl, rfl, ?_, ?_⟩
  · intro s hs hne
    have hs' : sanitizeNotes u notes = some s := hs
    simp only [toDict, hs']
    simp [hne, List.lookup]
  · intro h0
    have h0' : sanitizeNotes u notes = some "" := h0
    simp only [toDict, h0']
    rfl

/-- Witness for `c9_roundtrip` at a concrete valid request with non-empty
notes. -/
theorem c9_witness :
    mkStoryRequest asciiUnicode "Mia" 8 "Adventure" ["space", "dinosaurs"]
        (some "Loves science") =
      .ok ⟨"Mia", 8, "Adventure", ["space", "dinosaurs"],
        some "Loves science"⟩ ∧
    (toDict ⟨"Mia", 8, "Adventure", ["space", "dinosaurs"],
        some "Loves science"⟩).lookup "additional_notes" =
      some (.str "Loves science") := by
  obtain ⟨req, hok, -, -, -, -, -, -, -, -, -, -, -⟩ :=
    c9_roundtrip asciiUnicode "Mia" 8 "Adventure" ["space", "dinosaurs"]
      (some "Loves science") (by decide) (by decide) (by decide) (by decide)
      (by decide)
  have hreq : req = ⟨"Mia", 8, "Adventure", ["space", "dinosaurs"],
      some "Loves science"⟩ :=
    ((mkStoryRequest_ok_iff asciiUnicode "Mia" 8 "Adventure"
      ["space", "dinosaurs"] (some "Loves science") req).mp hok).2.2.2.2.2
  rw [hreq] at hok
  exact ⟨hok, by decide⟩

/-! ## Illustration size and style: claims C5, C6 -/

theorem validateSizeIll_rangeFail (w h : Int)
    (hr : ¬(256 ≤ w ∧ w ≤ 1024 ∧ 256 ≤ h ∧ h ≤ 1024)) :
    validateSizeIll (w, h) = .error ⟨dimBoundsMsg, "size"⟩ := by
  have hb : (256 ≤ w && w ≤ 1024 && 256 ≤ h && h ≤ 1024 : Bool) = false := by
    cases hB : (256 ≤ w && w ≤ 1024 && 256 ≤ h && h ≤ 1024 : Bool)
    · rfl
    · exact absurd (by simpa [and_assoc] using hB) hr
  simp [validateSizeIll, validateImageDimensions, hb]

theorem validateSizeIll_aspectFail (w h : Int)
    (hin : 256 ≤ w ∧ w ≤ 1024 ∧ 256 ≤ h ∧ h ≤ 1024)
    (hasp : h > 2 * w ∨ w > 2 * h) :
    validateSizeIll (w, h) = .error ⟨aspectMsg, "size"⟩ := by
  have hb : (256 ≤ w && w ≤ 1024 && 256 ≤ h && h ≤ 1024 : Bool) = true := by
    simp only [Bool.and_eq_true, decide_eq_true_eq]
    omega
  have hb2 : (h ≤ 2 * w && w ≤ 2 * h : Bool) = false := by
    cases hB : (h ≤ 2 * w && w ≤ 2 * h : Bool)
    · rfl
    · exfalso
      have := by simpa using hB
      rcases hasp with h1 | h1 <;> omega
  simp [validateSizeIll, validateImageDimensions, hb, hb2]

theorem validateSizeIll_multFail (w h : Int)
    (hin : 256 ≤ w ∧ w ≤ 1024 ∧ 256 ≤ h ∧ h ≤ 1024)
    (hok2 : h ≤ 2 * w ∧ w ≤ 2 * h)
    (hmult : ¬w % 8 = 0 ∨ ¬h % 8 = 0) :
    validateSizeIll (w, h) = .error ⟨multipleMsg, "size"⟩ := by
  have hb : (256 ≤ w && w ≤ 1024 && 256 ≤ h && h ≤ 1024 : Bool) = true := by
    simp only [Bool.and_eq_true, decide_eq_true_eq]
    omega
  have hb2 : (h ≤ 2 * w && w ≤ 2 * h : Bool) = true := by
    simp only [Bool.and_eq_true, decide_eq_true_eq]
    omega
  have hb3 : (w % 8 != 0 || h % 8 != 0 : Bool) = true := by
    simpa using hmult
  simp [validateSizeIll, validateImageDimensions, hb, hb2, hb3]

theorem validateSizeIll_badFail (w h : Int)
    (hd : ¬w % 8 = 0 ∨ ¬h % 8 = 0 ∨ h > 2 * w ∨ w > 2 * h) :
    ∃ e, validateSizeIll (w, h) = .error e := by
  by_cases hin : 256 ≤ w ∧ w ≤ 1024 ∧ 256 ≤ h ∧ h ≤ 1024
  · by_cases hasp : h > 2 * w ∨ w > 2 * h
    · exact ⟨_, validateSizeIll_aspectFail w h hin hasp⟩
    · have hok2 : h ≤ 2 * w ∧ w ≤ 2 * h := ⟨by omega, by omega⟩
      rcases hd with h1 | h1 | h1 | h1
      · exact ⟨_, validateSizeIll_multFail w h hin hok2 (Or.inl h1)⟩
      · exact ⟨_, validateSizeIll_multFail w h hin hok2 (Or.inr h1)⟩
      · exact absurd (Or.inl h1) hasp
      · exact absurd (Or.inr h1) hasp
  · exact ⟨_, validateSizeIll_rangeFail w h hin⟩

/-- C5: a size pair with a dimension not a multiple of 8 or aspect ratio
outside `[1/2, 2]` always fails validation (and construction); the checks
are ordered: an out-of-bounds pair fails with the bounds error, an in-bounds
pair with bad aspect fails with the aspect error, and only an in-bounds pair
with good aspect can fail the multiple-of-8 check. -/
theorem c5_size_validation :
    (∀ w h : Int, (¬w % 8 = 0 ∨ ¬h % 8 = 0 ∨ h > 2 * w ∨ w > 2 * h) →
      ∃ e, validateSizeIll (w, h) = .error e) ∧
    (∀ w h : Int, ¬(256 ≤ w ∧ w ≤ 1024 ∧ 256 ≤ h ∧ h ≤ 1024) →
      validateSizeIll (w, h) = .error ⟨dimBoundsMsg, "size"⟩) ∧
    (∀ w h : Int, (256 ≤ w ∧ w ≤ 1024 ∧ 256 ≤ h ∧ h ≤ 1024) →
      (h > 2 * w ∨ w > 2 * h) →
      validateSizeIll (w, h) = .error ⟨aspectMsg, "size"⟩) ∧
    (∀ w h : Int, (256 ≤ w ∧ w ≤ 1024 ∧ 256 ≤ h ∧ h ≤ 1024) →
      (h ≤ 2 * w ∧ w ≤ 2 * h) → (¬w % 8 = 0 ∨ ¬h % 8 = 0) →
      validateSizeIll (w, h) = .error ⟨multipleMsg, "size"⟩) ∧
    (∀ (prompt style : String) (ef : Bool) (p st : String) (w h : Int),
      validatePrompt prompt = .ok p → validateStyleIll style = .ok st →
      (¬w % 8 = 0 ∨ ¬h % 8 = 0 ∨ h > 2 * w ∨ w > 2 * h) →
      ∀ req, mkIllustrationRequest prompt style (w, h) ef ≠ .ok req) := by
  refine ⟨validateSizeIll_badFail, validateSizeIll_rangeFail,
    validateSizeIll_aspectFail, validateSizeIll_multFail, ?_⟩
  intro prompt style ef p st w h hp hst hd req hok
  obtain ⟨e, he⟩ := validateSizeIll_badFail w h hd
  simp [mkIllustrationRequest, hp, hst, he] at hok

/-- Witness for `c5_size_validation`: `(100,100)` fails the bounds check,
`(256,1024)` the aspect check, `(300,300)` the multiple-of-8 check, and
construction with size `(100,100)` fails despite valid prompt and style. -/
theorem c5_witness :
    validateSizeIll (100, 100) = .error ⟨dimBoundsMsg, "size"⟩ ∧
    validateSizeIll (256, 1024) = .error ⟨aspectMsg, "size"⟩ ∧
    validateSizeIll (300, 300) = .error ⟨multipleMsg, "size"⟩ ∧
    mkIllustrationRequest "A friendly dragon reading books" "watercolor"
        (100, 100) true ≠
      .ok ⟨"A friendly dragon reading books", "watercolor", (100, 100),
        true⟩ := by
  refine ⟨c5_size_validation.2.1 100 100 (by omega),
    c5_size_validation.2.2.1 256 1024 (by omega) (by omega),
    c5_size_validation.2.2.2.1 300 300 (by omega) (by omega) (by omega),
    c5_size_validation.2.2.2.2 "A friendly dragon reading books" "watercolor"
      true "A friendly dragon reading books" "watercolor" 100 100
      (by decide) (by decide) (by omega)
      ⟨"A friendly dragon reading books", "watercolor", (100, 100), true⟩⟩

/-- Case-insensitive acceptance with canonicalization: any string whose
character-wise lowercasing matches an enumeration entry validates to that
entry's exact casing. -/
theorem validateStyleIll_canonical :
    ∀ s ∈ SUPPORTED_STYLES, ∀ value : String,
      pyLower value = pyLower s → validateStyleIll value = .ok s := by
  intro s hs value hv
  fin_cases hs <;>
    (first
      | (have hvne : ¬value = "" := by
          intro hemp
          subst hemp
          revert hv
          decide
         simp only [validateStyleIll, hv, hvne]
         decide))

/-- C6: a style matching one of the five enumeration entries up to
lowercasing is accepted and canonicalized to the enumeration's casing (also
through full construction); a style matching no entry is rejected. -/
theorem c6_style_canonicalization :
    (∀ s ∈ SUPPORTED_STYLES, ∀ value : String,
      pyLower value = pyLower s → validateStyleIll value = .ok s) ∧
    (∀ value : String, (∀ s ∈ SUPPORTED_STYLES, pyLower value ≠ pyLower s) →
      validateStyleIll value = .error ⟨"Invalid illustration style", "style"⟩) ∧
    (∀ (prompt : String) (size : Int × Int) (ef : Bool) (p : String)
        (sz : Int × Int),
      validatePrompt prompt = .ok p → validateSizeIll size = .ok sz →
      ∀ s ∈ SUPPORTED_STYLES, ∀ value : String, pyLower value = pyLower s →
        mkIllustrationRequest prompt value size ef = .ok ⟨p, s, sz, ef⟩) := by
  refine ⟨validateStyleIll_canonical, ?_, ?_⟩
  · intro value h
    have hc : ((SUPPORTED_STYLES.map pyLower).contains (pyLower value)) = false := by
      cases hB : ((SUPPORTED_STYLES.map pyLower).contains (pyLower value))
      · rfl
      · exfalso
        have hmem : pyLower value ∈ SUPPORTED_STYLES.map pyLower := by
          simpa using hB
        obtain ⟨s, hs, heq⟩ := List.mem_map.mp hmem
        exact h s hs heq.symm
    simp [validateStyleIll, hc]
    intro _ x hx heq
    exact absurd heq.symm (h x hx)
  · intro prompt size ef p sz hp hsz s hs value hv
    simp [mkIllustrationRequest, hp, hsz, validateStyleIll_canonical s hs value hv]

/-- Witness for `c6_style_canonicalization`: `"Children's Book"` validates
and canonicalizes to `"children's book"`, an unknown style is rejected, and
full construction stores the canonical casing. -/
theorem c6_witness :
    validateStyleIll "Children\x27s Book" = .ok "children\x27s book" ∧
    validateStyleIll "gothic horror" =
      .error ⟨"Invalid illustration style", "style"⟩ ∧
    mkIllustrationRequest "A friendly dragon reading books" "Children\x27s Book"
        (512, 512) true =
      .ok ⟨"A friendly dragon reading books", "children\x27s book", (512, 512),
        true⟩ := by
  refine ⟨c6_style_canonicalization.1 "children\x27s book" (by decide)
      "Children\x27s Book" (by decide),
    c6_style_canonicalization.2.1 "gothic horror" (by decide),
    c6_style_canonicalization.2.2 "A friendly dragon reading books" (512, 512)
      true "A friendly dragon reading books" (512, 512) (by decide) (by decide)
      "children\x27s book" (by decide) "Children\x27s Book" (by decide)⟩

end AIService
